import Mathlib

/-!
Shallow embedding of `src/fuzzer/avc_dec_fuzzer.cpp` (the libavc decoder
fuzz harness).  The external decoder (`ivd_api_function`, i.e. the libavc
library itself) is opaque to the harness, so it is modelled as an `Oracle`:
a creation-success flag together with a stream of decode responses, one per
`IVD_CMD_VIDEO_DECODE` submission.  Every call the harness makes to the
collaborator is recorded in an event trace, so that claims about which calls
are issued (and with which arguments) can be stated and proved.
-/

/-- Pixel layouts used by the fuzzer, from the `IV_COLOR_FORMAT_T` enum.
`otherFormat` stands for every remaining member of the C enum: all of those
fall into the `default` branch of `Codec::allocFrame`. -/
inductive IVColorFormat where
  | IV_YUV_420P
  | IV_YUV_420SP_UV
  | IV_YUV_420SP_VU
  | IV_YUV_422ILE
  | IV_RGB_565
  | IV_RGBA_8888
  | otherFormat
deriving DecidableEq, Repr

/-- Decode modes passed by `Codec::setParams` (`IVD_VIDEO_DECODE_MODE_T`). -/
inductive IVDVideoDecodeMode where
  | IVD_DECODE_HEADER
  | IVD_DECODE_FRAME
deriving DecidableEq, Repr

/-- One `ivd_api_function` call issued by the harness.  `hasHandle` records
whether `mCodec` was non-null at the call (creation succeeded earlier).
`freeBuf`/`alloc` record the output-plane buffer releases/acquisitions
performed by `Codec::freeFrame` / `Codec::allocFrame`. -/
inductive Ev where
  | create (ok : Bool)
  | setCores (hasHandle : Bool) (n : Nat)
  | setParams (hasHandle : Bool) (mode : IVDVideoDecodeMode)
  | reset (hasHandle : Bool)
  | decode (hasHandle : Bool) (off len : Nat) (outBufs : List Nat)
  | freeBuf (sz : Nat)
  | alloc (w h : Nat) (sizes : List Nat)
  | deleteInst (hasHandle : Bool)
deriving DecidableEq, Repr

/-- Fields of `ivd_video_decode_op_t` read by the harness, with the C field
names.  Values are the `UWORD32`/`size_t` contents as natural numbers. -/
structure DecResp where
  u4_num_bytes_consumed : Nat
  u4_pic_wd : Nat
  u4_pic_ht : Nat
  u4_error_code : Nat
deriving DecidableEq, Repr

/-- The opaque collaborator: whether `IVD_CMD_CREATE` succeeds, and the
response to the k-th `IVD_CMD_VIDEO_DECODE` submission of the session. -/
structure Oracle where
  createOk : Bool
  resp : Nat → DecResp

/-- The members of class `Codec`, plus `calls`, the number of decode
submissions issued so far (the index into the oracle's response stream).
`mOutBufs` holds the currently allocated output plane sizes
(`mOutBufHandle.u4_min_out_buf_size[0 .. u4_num_bufs)`). -/
structure CodecState where
  hasCodec : Bool
  mColorFormat : IVColorFormat
  mNumCores : Nat
  mWidth : Nat
  mHeight : Nat
  mOutBufs : List Nat
  calls : Nat
deriving DecidableEq, Repr

/-- Result of a driver loop: final state, emitted events, iteration count. -/
structure LoopOut where
  st : CodecState
  evs : List Ev
  iters : Nat
deriving Repr

def OFFSET_COLOR_FORMAT : Nat := 6

def OFFSET_NUM_CORES : Nat := 7

def kMaxCores : Nat := 4

def supportedColorFormats : List IVColorFormat :=
  [.IV_YUV_420P, .IV_YUV_420SP_UV, .IV_YUV_420SP_VU,
   .IV_YUV_422ILE, .IV_RGB_565, .IV_RGBA_8888]

def kSupportedColorFormats : Nat := supportedColorFormats.length

/-- 2^32: `mWidth`, `mHeight` are `UWORD32`, so the products computed in
`Codec::allocFrame` are reduced modulo this before widening to `size_t`. -/
def UINT32_LIMIT : Nat := 4294967296

/-- Modelled from the spec: the resolution-change error code of the
collaborator protocol.  Its numeric value lives in `ivd.h`, which is not
under `src/`; every claim depends only on equality of the low byte of
`u4_error_code` with this constant, so the exact value is immaterial. -/
def IVD_RES_CHANGED : Nat := 22

/-- Configuration selection of `LLVMFuzzerTestOneInput` lines 355-360:
offsets clamped to `size - 1`, layout from the catalog, cores in [1,4].
Only called with `input.length ≥ 1`. -/
def selectConfig (input : List Nat) : IVColorFormat × Nat :=
  let size := input.length
  let colorFormatOfst := min OFFSET_COLOR_FORMAT (size - 1)
  let numCoresOfst := min OFFSET_NUM_CORES (size - 1)
  let colorFormatIdx := input.getD colorFormatOfst 0 % kSupportedColorFormats
  let colorFormat := supportedColorFormats.getD colorFormatIdx .IV_YUV_420P
  let numCores := input.getD numCoresOfst 0 % kMaxCores + 1
  (colorFormat, numCores)

/-- Plane sizes computed by the switch of `Codec::allocFrame` (lines
231-259).  `mWidth * mHeight` is `UWORD32` arithmetic, hence the explicit
reductions modulo 2^32; `>> 1` and `>> 2` are the C right shifts. -/
def allocSizes (fmt : IVColorFormat) (w h : Nat) : List Nat :=
  let wh := w * h % UINT32_LIMIT
  match fmt with
  | .IV_YUV_420SP_UV | .IV_YUV_420SP_VU => [wh, wh / 2]
  | .IV_YUV_422ILE => [wh * 2 % UINT32_LIMIT]
  | .IV_RGB_565 => [wh * 2 % UINT32_LIMIT]
  | .IV_RGBA_8888 => [wh * 4 % UINT32_LIMIT]
  | .IV_YUV_420P | .otherFormat => [wh, wh / 4, wh / 4]

/-- Modelled from the spec: `ColorLayoutCatalog.planeSizes` of section 4.1,
stated with exact (unbounded) arithmetic as the spec writes the formulas.
Used to compare the code's `allocSizes` against the spec's catalog. -/
def planeSizes (fmt : IVColorFormat) (w h : Nat) : List Nat :=
  match fmt with
  | .IV_YUV_420SP_UV | .IV_YUV_420SP_VU => [w * h, w * h / 2]
  | .IV_YUV_422ILE => [w * h * 2]
  | .IV_RGB_565 => [w * h * 2]
  | .IV_RGBA_8888 => [w * h * 4]
  | .IV_YUV_420P | .otherFormat => [w * h, w * h / 4, w * h / 4]

/-- `Codec::allocFrame`: `freeFrame()` releases every currently held plane,
then fresh planes of `allocSizes` are acquired and recorded. -/
def allocFrame (st : CodecState) : CodecState × List Ev :=
  let sizes := allocSizes st.mColorFormat st.mWidth st.mHeight
  ({ st with mOutBufs := sizes },
    st.mOutBufs.map Ev.freeBuf ++ [Ev.alloc st.mWidth st.mHeight sizes])

/-- Forward-progress substitution (lines 288-290, 338-340): a reported
consumption of zero is replaced by 4. -/
def substConsume (reported : Nat) : Nat :=
  if reported = 0 then 4 else reported

/-- Effective cursor advance of one loop iteration: the substituted
consumption clamped to the remaining length (lines 290-292, 340, 374). -/
def effectiveConsume (size reported : Nat) : Nat :=
  min size (substConsume reported)

/-- The `while (size > 0)` loop of `Codec::decodeHeader` (lines 269-304):
submit the remaining input, substitute/clamp the consumption, advance,
store the clamped geometry, and stop once both dimensions are nonzero.
The loop carries an explicit iteration budget `fuel` to be structurally
recursive; every iteration removes at least one byte from `size`, so a
budget of `size` iterations is always enough and the budget is never what
stops the loop (`headerLoopF_fuel_irrel` below). -/
def headerLoopF (o : Oracle) : Nat → CodecState → Nat → Nat → LoopOut
  | 0, st, _, _ => ⟨st, [], 0⟩
  | fuel + 1, st, off, size =>
    if size = 0 then ⟨st, [], 0⟩
    else
      let r := o.resp st.calls
      let bc := effectiveConsume size r.u4_num_bytes_consumed
      let st1 := { st with
        mWidth := min r.u4_pic_wd 10240,
        mHeight := min r.u4_pic_ht 10240,
        calls := st.calls + 1 }
      let ev := Ev.decode st.hasCodec off size []
      if st1.mWidth ≠ 0 ∧ st1.mHeight ≠ 0 then ⟨st1, [ev], 1⟩
      else
        let rest := headerLoopF o fuel st1 (off + bc) (size - bc)
        ⟨rest.st, ev :: rest.evs, rest.iters + 1⟩

/-- The header-discovery loop as the program runs it. -/
def headerLoop (o : Oracle) (st : CodecState) (off size : Nat) : LoopOut :=
  headerLoopF o size st off size

/-- `Codec::decodeHeader` (lines 266-308): header mode is set, the
discovery loop runs, then each still-zero dimension gets its default. -/
def decodeHeader (o : Oracle) (st : CodecState) (off size : Nat) :
    CodecState × List Ev × Nat :=
  let lo := headerLoop o st off size
  let stW := if lo.st.mWidth = 0 then { lo.st with mWidth := 1920 } else lo.st
  let stH := if stW.mHeight = 0 then { stW with mHeight := 1088 } else stW
  (stH, Ev.setParams st.hasCodec .IVD_DECODE_HEADER :: lo.evs, lo.iters)

/-- The decode response that governs one `Codec::decodeFrame` call: the
first response, unless its low error byte signals a resolution change, in
which case the response to the resubmission (lines 330-336). -/
def governingResp (o : Oracle) (st : CodecState) : DecResp :=
  if (o.resp st.calls).u4_error_code % 256 = IVD_RES_CHANGED then
    o.resp (st.calls + 1)
  else o.resp st.calls

/-- `Codec::decodeFrame` (lines 310-349): one submission, an optional
reset-and-resubmit on a resolution-change error, forward-progress
substitution of the consumed count, and buffer reallocation when the
reported geometry differs from the stored one.  Returns the new state, the
value stored into `*bytesConsumed`, and the emitted events. -/
def decodeFrame (o : Oracle) (st : CodecState) (off size : Nat) :
    CodecState × Nat × List Ev :=
  let probe : CodecState × List Ev :=
    if (o.resp st.calls).u4_error_code % 256 = IVD_RES_CHANGED then
      ({ st with calls := st.calls + 2 },
        [Ev.reset st.hasCodec, Ev.decode st.hasCodec off size st.mOutBufs])
    else ({ st with calls := st.calls + 1 }, [])
  let rg := governingResp o st
  let upd : CodecState × List Ev :=
    if st.mWidth ≠ rg.u4_pic_wd ∨ st.mHeight ≠ rg.u4_pic_ht then
      allocFrame { probe.1 with
        mWidth := min rg.u4_pic_wd 10240,
        mHeight := min rg.u4_pic_ht 10240 }
    else (probe.1, [])
  (upd.1, substConsume rg.u4_num_bytes_consumed,
    Ev.decode st.hasCodec off size st.mOutBufs :: (probe.2 ++ upd.2))

/-- The `while (size > 0)` loop of `LLVMFuzzerTestOneInput` (lines
369-377): decode one chunk, clamp the returned consumption, advance.
Structurally recursive on an iteration budget, like `headerLoopF`; a
budget of `size` always suffices (`frameLoopF_fuel_irrel` below). -/
def frameLoopF (o : Oracle) : Nat → CodecState → Nat → Nat → LoopOut
  | 0, st, _, _ => ⟨st, [], 0⟩
  | fuel + 1, st, off, size =>
    if size = 0 then ⟨st, [], 0⟩
    else
      let d := decodeFrame o st off size
      let bc := min size d.2.1
      let rest := frameLoopF o fuel d.1 (off + bc) (size - bc)
      ⟨rest.st, d.2.2 ++ rest.evs, rest.iters + 1⟩

/-- The per-frame decode loop as the program runs it. -/
def frameLoop (o : Oracle) (st : CodecState) (off size : Nat) : LoopOut :=
  frameLoopF o size st off size

/-- The `Codec` constructor plus the initial `memset` of `mOutBufHandle`. -/
def initState (fmt : IVColorFormat) (cores : Nat) : CodecState :=
  ⟨false, fmt, cores, 0, 0, [], 0⟩

/-- `Codec::createCodec`: on success the handle is stored; on failure the
method returns early and `mCodec` stays null, which nothing checks. -/
def createCodec (o : Oracle) (st : CodecState) : CodecState :=
  if o.createOk then { st with hasCodec := true } else st

/-- Everything one `LLVMFuzzerTestOneInput` call produces, with the two
loops' traces and iteration counts exposed alongside the full trace. -/
structure SessionResult where
  ran : Bool
  cfg : IVColorFormat × Nat
  headerEvs : List Ev
  frameEvs : List Ev
  headerIters : Nat
  frameIters : Nat
  finalSt : CodecState
  trace : List Ev
deriving Repr

/-- `LLVMFuzzerTestOneInput` (lines 351-383): refuse empty input, select
the configuration, create (failure leaves the handle null and is not
checked), set cores, discover the header, switch to frame mode, allocate
buffers, run the frame loop from offset 0 with the full length, free the
buffers and delete the instance. -/
def runSession (o : Oracle) (input : List Nat) : SessionResult :=
  let size := input.length
  if size = 0 then
    ⟨false, (.IV_YUV_420P, 1), [], [], 0, 0, initState .IV_YUV_420P 1, []⟩
  else
    let cfg := selectConfig input
    let st1 := createCodec o (initState cfg.1 cfg.2)
    let hd := decodeHeader o st1 0 size
    let af := allocFrame hd.1
    let fl := frameLoop o af.1 0 size
    { ran := true
      cfg := cfg
      headerEvs := hd.2.1
      frameEvs := fl.evs
      headerIters := hd.2.2
      frameIters := fl.iters
      finalSt := fl.st
      trace := Ev.create o.createOk :: Ev.setCores st1.hasCodec st1.mNumCores ::
        (hd.2.1 ++ Ev.setParams hd.1.hasCodec .IVD_DECODE_FRAME ::
          (af.2 ++ fl.evs ++ fl.st.mOutBufs.map Ev.freeBuf ++
            [Ev.deleteInst fl.st.hasCodec])) }

def Ev.isAlloc : Ev → Bool
  | .alloc .. => true
  | _ => false

def Ev.isFreeBuf : Ev → Bool
  | .freeBuf _ => true
  | _ => false

def Ev.isDecode : Ev → Bool
  | .decode .. => true
  | _ => false

def Ev.isReset : Ev → Bool
  | .reset _ => true
  | _ => false

/-- Whether an event is an `ivd_api_function` call that passes the
`mCodec` handle, and that handle was non-null. -/
def Ev.usesHandle : Ev → Bool
  | .setCores h _ => h
  | .setParams h _ => h
  | .reset h => h
  | .decode h .. => h
  | .deleteInst h => h
  | _ => false

def countDecodes (evs : List Ev) : Nat := (evs.filter Ev.isDecode).length

def countResets (evs : List Ev) : Nat := (evs.filter Ev.isReset).length

/-- A collaborator that accepts creation and answers every decode with all
fields zero (nothing consumed, no geometry, no error). -/
def silentOracle : Oracle := ⟨true, fun _ => ⟨0, 0, 0, 0⟩⟩

/-- A collaborator whose instance creation fails. -/
def failOracle : Oracle := ⟨false, fun _ => ⟨0, 0, 0, 0⟩⟩

/-- A collaborator that consumes exactly one byte per decode call and never
reports a geometry or an error. -/
def oneByteOracle : Oracle := ⟨true, fun _ => ⟨1, 0, 0, 0⟩⟩

/-- A collaborator whose first decode response signals a resolution change
and whose later responses consume two bytes at geometry 64x32. -/
def resChangeOracle : Oracle :=
  ⟨true, fun k => if k = 0 then ⟨0, 0, 0, IVD_RES_CHANGED⟩ else ⟨2, 64, 32, 0⟩⟩

/-- A concrete codec state used to instantiate general theorems. -/
def exampleState : CodecState := initState .IV_YUV_420P 1

theorem substConsume_pos (n : Nat) : 0 < substConsume n := by
  unfold substConsume
  split <;> omega

theorem effectiveConsume_pos (size r : Nat) (h : 1 ≤ size) :
    1 ≤ effectiveConsume size r := by
  have := substConsume_pos r
  unfold effectiveConsume
  omega

theorem effectiveConsume_le (size r : Nat) : effectiveConsume size r ≤ size := by
  unfold effectiveConsume
  omega

theorem effectiveConsume_of_zero (size : Nat) :
    effectiveConsume size 0 = min 4 size := by
  unfold effectiveConsume substConsume
  simp [Nat.min_comm]

theorem decodeFrame_consumed (o : Oracle) (st : CodecState) (off size : Nat) :
    (decodeFrame o st off size).2.1
      = substConsume (governingResp o st).u4_num_bytes_consumed := rfl

theorem headerLoopF_iters_le (o : Oracle) :
    ∀ fuel st off size, (headerLoopF o fuel st off size).iters ≤ size := by
  intro fuel
  induction fuel with
  | zero => intro st off size; simp [headerLoopF]
  | succ fuel ih =>
    intro st off size
    simp only [headerLoopF]
    split
    · simp
    · next hs =>
      split
      · exact Nat.one_le_iff_ne_zero.mpr hs
      · have h1 := effectiveConsume_pos size
          (o.resp st.calls).u4_num_bytes_consumed (Nat.one_le_iff_ne_zero.mpr hs)
        have h2 := ih { st with
          mWidth := min (o.resp st.calls).u4_pic_wd 10240,
          mHeight := min (o.resp st.calls).u4_pic_ht 10240,
          calls := st.calls + 1 }
          (off + effectiveConsume size (o.resp st.calls).u4_num_bytes_consumed)
          (size - effectiveConsume size (o.resp st.calls).u4_num_bytes_consumed)
        dsimp only at h2 ⊢
        omega

theorem headerLoopF_fuel_irrel (o : Oracle) :
    ∀ f1 f2 st off size, size ≤ f1 → size ≤ f2 →
      headerLoopF o f1 st off size = headerLoopF o f2 st off size := by
  intro f1
  induction f1 with
  | zero =>
    intro f2 st off size h1 h2
    have hz : size = 0 := Nat.le_zero.mp h1
    subst hz
    cases f2 with
    | zero => rfl
    | succ f2 => simp [headerLoopF]
  | succ f1 ih =>
    intro f2 st off size h1 h2
    cases f2 with
    | zero =>
      have hz : size = 0 := Nat.le_zero.mp h2
      subst hz
      simp [headerLoopF]
    | succ f2 =>
      by_cases hs : size = 0
      · subst hs; simp [headerLoopF]
      · simp only [headerLoopF, if_neg hs]
        split
        · rfl
        · have hbc := effectiveConsume_pos size
            (o.resp st.calls).u4_num_bytes_consumed (Nat.one_le_iff_ne_zero.mpr hs)
          rw [ih f2 _ _ _ (by omega) (by omega)]

theorem headerLoopF_eq_headerLoop (o : Oracle) (fuel : Nat) (st : CodecState)
    (off size : Nat) (h : size ≤ fuel) :
    headerLoopF o fuel st off size = headerLoop o st off size :=
  headerLoopF_fuel_irrel o fuel size st off size h (Nat.le_refl size)

theorem headerLoopF_preserve (o : Oracle) :
    ∀ fuel st off size,
      (headerLoopF o fuel st off size).st.hasCodec = st.hasCodec ∧
      (headerLoopF o fuel st off size).st.mColorFormat = st.mColorFormat ∧
      (headerLoopF o fuel st off size).st.mNumCores = st.mNumCores ∧
      (headerLoopF o fuel st off size).st.mOutBufs = st.mOutBufs := by
  intro fuel
  induction fuel with
  | zero => intro st off size; simp [headerLoopF]
  | succ fuel ih =>
    intro st off size
    simp only [headerLoopF]
    split
    · simp
    · split
      · simp
      · exact ih _ _ _

theorem headerLoopF_evs (o : Oracle) :
    ∀ fuel st off size, ∀ e ∈ (headerLoopF o fuel st off size).evs,
      ∃ a b, e = Ev.decode st.hasCodec a b [] := by
  intro fuel
  induction fuel with
  | zero => intro st off size e he; simp [headerLoopF] at he
  | succ fuel ih =>
    intro st off size e he
    simp only [headerLoopF] at he
    split at he
    · simp at he
    · split at he
      · simp at he
        exact ⟨off, size, by simp [he]⟩
      · simp only [List.mem_cons] at he
        rcases he with he | he
        · exact ⟨off, size, by simp [he]⟩
        · rcases ih { st with
              mWidth := min (o.resp st.calls).u4_pic_wd 10240,
              mHeight := min (o.resp st.calls).u4_pic_ht 10240,
              calls := st.calls + 1 }
              (off + effectiveConsume size (o.resp st.calls).u4_num_bytes_consumed)
              (size - effectiveConsume size (o.resp st.calls).u4_num_bytes_consumed)
              e he with ⟨a, b, hab⟩
          exact ⟨a, b, hab⟩

theorem headerLoopF_geom (o : Oracle) :
    ∀ fuel st off size,
      ((headerLoopF o fuel st off size).st.mWidth = st.mWidth ∨
        (headerLoopF o fuel st off size).st.mWidth ≤ 10240) ∧
      ((headerLoopF o fuel st off size).st.mHeight = st.mHeight ∨
        (headerLoopF o fuel st off size).st.mHeight ≤ 10240) := by
  intro fuel
  induction fuel with
  | zero => intro st off size; simp [headerLoopF]
  | succ fuel ih =>
    intro st off size
    simp only [headerLoopF]
    split
    · simp
    · split
      · constructor
        · right
          simp [Nat.min_le_right]
        · right
          simp [Nat.min_le_right]
      · rcases ih { st with
            mWidth := min (o.resp st.calls).u4_pic_wd 10240,
            mHeight := min (o.resp st.calls).u4_pic_ht 10240,
            calls := st.calls + 1 }
            (off + effectiveConsume size (o.resp st.calls).u4_num_bytes_consumed)
            (size - effectiveConsume size (o.resp st.calls).u4_num_bytes_consumed)
          with ⟨hw, hh⟩
        constructor
        · rcases hw with hw | hw
          · right
            rw [hw]
            exact Nat.min_le_right _ _
          · right
            exact hw
        · rcases hh with hh | hh
          · right
            rw [hh]
            exact Nat.min_le_right _ _
          · right
            exact hh

theorem decodeFrame_preserve (o : Oracle) (st : CodecState) (off size : Nat) :
    (decodeFrame o st off size).1.hasCodec = st.hasCodec ∧
    (decodeFrame o st off size).1.mColorFormat = st.mColorFormat ∧
    (decodeFrame o st off size).1.mNumCores = st.mNumCores := by
  unfold decodeFrame allocFrame
  dsimp only
  split <;> split <;> simp

theorem decodeFrame_calls (o : Oracle) (st : CodecState) (off size : Nat) :
    (decodeFrame o st off size).1.calls = st.calls + 1 ∨
    (decodeFrame o st off size).1.calls = st.calls + 2 := by
  unfold decodeFrame allocFrame
  dsimp only
  split <;> split <;> simp

theorem decodeFrame_evs_eq (o : Oracle) (st : CodecState) (off size : Nat) :
    (decodeFrame o st off size).2.2 =
      Ev.decode st.hasCodec off size st.mOutBufs ::
        ((if (o.resp st.calls).u4_error_code % 256 = IVD_RES_CHANGED then
            [Ev.reset st.hasCodec, Ev.decode st.hasCodec off size st.mOutBufs]
          else []) ++
          (if st.mWidth ≠ (governingResp o st).u4_pic_wd ∨
              st.mHeight ≠ (governingResp o st).u4_pic_ht then
            st.mOutBufs.map Ev.freeBuf ++
              [Ev.alloc (min (governingResp o st).u4_pic_wd 10240)
                (min (governingResp o st).u4_pic_ht 10240)
                (allocSizes st.mColorFormat
                  (min (governingResp o st).u4_pic_wd 10240)
                  (min (governingResp o st).u4_pic_ht 10240))]
          else [])) := by
  unfold decodeFrame allocFrame
  dsimp only
  split <;> split <;> simp [*]

theorem decodeFrame_evs (o : Oracle) (st : CodecState) (off size : Nat) :
    ∀ e ∈ (decodeFrame o st off size).2.2,
      (Ev.usesHandle e = st.hasCodec ∨ Ev.usesHandle e = false) ∧
      (∀ w h s, e = Ev.alloc w h s → w ≤ 10240 ∧ h ≤ 10240) := by
  intro e he
  rw [decodeFrame_evs_eq] at he
  simp only [List.mem_cons, List.mem_append, List.mem_map, List.mem_singleton] at he
  rcases he with rfl | he
  · exact ⟨Or.inl rfl, by intro w h s hcontra; cases hcontra⟩
  rcases he with he | he
  · split at he
    · simp only [List.mem_cons, List.not_mem_nil, or_false, List.mem_singleton] at he
      rcases he with rfl | rfl
      · exact ⟨Or.inl rfl, by intro w h s hcontra; cases hcontra⟩
      · exact ⟨Or.inl rfl, by intro w h s hcontra; cases hcontra⟩
    · simp at he
  · split at he
    · simp only [List.mem_append, List.mem_map, List.mem_singleton] at he
      rcases he with ⟨sz, _, rfl⟩ | rfl
      · exact ⟨Or.inr rfl, by intro w h s hcontra; cases hcontra⟩
      · refine ⟨Or.inr rfl, ?_⟩
        intro w h s heq
        cases heq
        exact ⟨Nat.min_le_right _ _, Nat.min_le_right _ _⟩
    · simp at he

theorem decodeFrame_consumed_pos (o : Oracle) (st : CodecState) (off size : Nat) :
    0 < (decodeFrame o st off size).2.1 := by
  rw [decodeFrame_consumed]
  exact substConsume_pos _

theorem frameLoopF_iters_le (o : Oracle) :
    ∀ fuel st off size, (frameLoopF o fuel st off size).iters ≤ size := by
  intro fuel
  induction fuel with
  | zero => intro st off size; simp [frameLoopF]
  | succ fuel ih =>
    intro st off size
    simp only [frameLoopF]
    split
    · simp
    · next hs =>
      have h1 := decodeFrame_consumed_pos o st off size
      have h2 := ih (decodeFrame o st off size).1
        (off + min size (decodeFrame o st off size).2.1)
        (size - min size (decodeFrame o st off size).2.1)
      dsimp only at h2 ⊢
      omega

theorem frameLoopF_fuel_irrel (o : Oracle) :
    ∀ f1 f2 st off size, size ≤ f1 → size ≤ f2 →
      frameLoopF o f1 st off size = frameLoopF o f2 st off size := by
  intro f1
  induction f1 with
  | zero =>
    intro f2 st off size h1 h2
    have hz : size = 0 := Nat.le_zero.mp h1
    subst hz
    cases f2 with
    | zero => rfl
    | succ f2 => simp [frameLoopF]
  | succ f1 ih =>
    intro f2 st off size h1 h2
    cases f2 with
    | zero =>
      have hz : size = 0 := Nat.le_zero.mp h2
      subst hz
      simp [frameLoopF]
    | succ f2 =>
      by_cases hs : size = 0
      · subst hs; simp [frameLoopF]
      · simp only [frameLoopF, if_neg hs]
        have hbc := decodeFrame_consumed_pos o st off size
        rw [ih f2 _ _ _ (by omega) (by omega)]

theorem frameLoopF_eq_frameLoop (o : Oracle) (fuel : Nat) (st : CodecState)
    (off size : Nat) (h : size ≤ fuel) :
    frameLoopF o fuel st off size = frameLoop o st off size :=
  frameLoopF_fuel_irrel o fuel size st off size h (Nat.le_refl size)

theorem frameLoopF_preserve (o : Oracle) :
    ∀ fuel st off size,
      (frameLoopF o fuel st off size).st.hasCodec = st.hasCodec ∧
      (frameLoopF o fuel st off size).st.mColorFormat = st.mColorFormat ∧
      (frameLoopF o fuel st off size).st.mNumCores = st.mNumCores := by
  intro fuel
  induction fuel with
  | zero => intro st off size; simp [frameLoopF]
  | succ fuel ih =>
    intro st off size
    simp only [frameLoopF]
    split
    · simp
    · have hd := decodeFrame_preserve o st off size
      have hrest := ih (decodeFrame o st off size).1
        (off + min size (decodeFrame o st off size).2.1)
        (size - min size (decodeFrame o st off size).2.1)
      dsimp only at hrest ⊢
      exact ⟨hrest.1.trans hd.1, hrest.2.1.trans hd.2.1, hrest.2.2.trans hd.2.2⟩

theorem frameLoopF_evs (o : Oracle) :
    ∀ fuel st off size, ∀ e ∈ (frameLoopF o fuel st off size).evs,
      (Ev.usesHandle e = st.hasCodec ∨ Ev.usesHandle e = false) ∧
      (∀ w h s, e = Ev.alloc w h s → w ≤ 10240 ∧ h ≤ 10240) := by
  intro fuel
  induction fuel with
  | zero => intro st off size e he; simp [frameLoopF] at he
  | succ fuel ih =>
    intro st off size e he
    simp only [frameLoopF] at he
    split at he
    · simp at he
    · simp only [List.mem_append] at he
      rcases he with he | he
      · exact decodeFrame_evs o st off size e he
      · have hd := decodeFrame_preserve o st off size
        have := ih (decodeFrame o st off size).1
          (off + min size (decodeFrame o st off size).2.1)
          (size - min size (decodeFrame o st off size).2.1) e he
        rcases this with ⟨h1, h2⟩
        refine ⟨?_, h2⟩
        rcases h1 with h1 | h1
        · rw [hd.1] at h1
          exact Or.inl h1
        · exact Or.inr h1

theorem decodeHeader_pos (o : Oracle) (st : CodecState) (off size : Nat) :
    0 < (decodeHeader o st off size).1.mWidth ∧
    0 < (decodeHeader o st off size).1.mHeight := by
  unfold decodeHeader
  dsimp only
  constructor
  · split <;> split <;> first | omega | (simp_all <;> try omega)
  · split <;> split <;> first | omega | (simp_all <;> try omega)

theorem decodeHeader_clamped (o : Oracle) (st : CodecState) (off size : Nat)
    (hw : st.mWidth ≤ 10240) (hh : st.mHeight ≤ 10240) :
    (decodeHeader o st off size).1.mWidth ≤ 10240 ∧
    (decodeHeader o st off size).1.mHeight ≤ 10240 := by
  have hg := headerLoopF_geom o size st off size
  unfold decodeHeader headerLoop
  dsimp only
  unfold headerLoop at hg
  rcases hg with ⟨hgw, hgh⟩
  constructor
  · rcases hgw with hgw | hgw <;> split <;> split <;> simp_all
  · rcases hgh with hgh | hgh <;> split <;> split <;> simp_all

theorem decodeHeader_preserve (o : Oracle) (st : CodecState) (off size : Nat) :
    (decodeHeader o st off size).1.hasCodec = st.hasCodec ∧
    (decodeHeader o st off size).1.mColorFormat = st.mColorFormat ∧
    (decodeHeader o st off size).1.mNumCores = st.mNumCores ∧
    (decodeHeader o st off size).1.mOutBufs = st.mOutBufs := by
  have hp := headerLoopF_preserve o size st off size
  unfold decodeHeader headerLoop
  dsimp only
  split <;> split <;> simp_all

theorem decodeHeader_evs (o : Oracle) (st : CodecState) (off size : Nat) :
    ∀ e ∈ (decodeHeader o st off size).2.1,
      e = Ev.setParams st.hasCodec .IVD_DECODE_HEADER ∨
      ∃ a b, e = Ev.decode st.hasCodec a b [] := by
  intro e he
  unfold decodeHeader at he
  dsimp only at he
  simp only [List.mem_cons] at he
  rcases he with rfl | he
  · exact Or.inl rfl
  · exact Or.inr (headerLoopF_evs o size st off size e he)

theorem headerLoopF_first (o : Oracle) (fuel : Nat) (st : CodecState)
    (off size : Nat) (hs : size ≠ 0) (hf : fuel ≠ 0) :
    (headerLoopF o fuel st off size).evs.head? =
      some (Ev.decode st.hasCodec off size []) := by
  cases fuel with
  | zero => exact absurd rfl hf
  | succ fuel =>
    simp only [headerLoopF, if_neg hs]
    split <;> simp

theorem frameLoopF_first (o : Oracle) (fuel : Nat) (st : CodecState)
    (off size : Nat) (hs : size ≠ 0) (hf : fuel ≠ 0) :
    (frameLoopF o fuel st off size).evs.head? =
      some (Ev.decode st.hasCodec off size st.mOutBufs) := by
  cases fuel with
  | zero => exact absurd rfl hf
  | succ fuel =>
    simp only [frameLoopF, if_neg hs]
    rw [decodeFrame_evs_eq]
    simp

theorem headerLoop_iters_le (o : Oracle) (st : CodecState) (off size : Nat) :
    (headerLoop o st off size).iters ≤ size :=
  headerLoopF_iters_le o size st off size

theorem frameLoop_iters_le (o : Oracle) (st : CodecState) (off size : Nat) :
    (frameLoop o st off size).iters ≤ size :=
  frameLoopF_iters_le o size st off size

theorem decodeHeader_iters (o : Oracle) (st : CodecState) (off size : Nat) :
    (decodeHeader o st off size).2.2 = (headerLoop o st off size).iters := rfl

/-- Claim C9 (amended: the formulas hold whenever both dimensions are at
most 10240, which the driver guarantees at every allocation site; for
unbounded dimensions the uint32 products of `Codec::allocFrame` wrap, see
the counterexample): the plane-size computation is total and agrees with
the spec catalog `planeSizes` on every layout, and any layout outside the
recognized switch cases yields the Planar420 formula. -/
theorem claim_C9 (fmt : IVColorFormat) (w h : Nat)
    (hw : w ≤ 10240) (hh : h ≤ 10240) :
    allocSizes fmt w h = planeSizes fmt w h ∧
    allocSizes .otherFormat w h = allocSizes .IV_YUV_420P w h := by
  have hwh : w * h ≤ 10240 * 10240 := Nat.mul_le_mul hw hh
  have h1 : w * h % UINT32_LIMIT = w * h := by
    apply Nat.mod_eq_of_lt
    unfold UINT32_LIMIT
    omega
  have h2 : w * h * 2 % UINT32_LIMIT = w * h * 2 := by
    apply Nat.mod_eq_of_lt
    unfold UINT32_LIMIT
    omega
  have h4 : w * h * 4 % UINT32_LIMIT = w * h * 4 := by
    apply Nat.mod_eq_of_lt
    unfold UINT32_LIMIT
    omega
  constructor
  · cases fmt <;> simp [allocSizes, planeSizes, h1, h2, h4]
  · simp [allocSizes]

/-- Claim C9 counterexample: at width = height = 65536 the first Planar420
plane size wraps to 0 in the code's uint32 arithmetic, so the claimed
formula [w*h, w*h/4, w*h/4] does not hold for arbitrary dimensions. -/
theorem claim_C9_cx :
    allocSizes .IV_YUV_420P 65536 65536 ≠
      [65536 * 65536, 65536 * 65536 / 4, 65536 * 65536 / 4] := by decide

/-- Witness for claim C9 at the default geometry. -/
theorem claim_C9_witness :
    allocSizes .IV_RGBA_8888 1920 1088 = planeSizes .IV_RGBA_8888 1920 1088 ∧
    allocSizes .otherFormat 1920 1088 = allocSizes .IV_YUV_420P 1920 1088 :=
  claim_C9 .IV_RGBA_8888 1920 1088 (by decide) (by decide)

/-- Claim C7: for every input of length at least 1, the configuration
selector reads only clamped indices at most length-1, the layout is the
catalog entry at the layout byte mod 6, the worker count is the cores byte
mod 4 plus 1 and lies in [1,4], and on a 7-byte input both clamped offsets
equal 6 (so both reads see the same byte). -/
theorem claim_C7 (input : List Nat) (h : 1 ≤ input.length) :
    min OFFSET_COLOR_FORMAT (input.length - 1) ≤ input.length - 1 ∧
    min OFFSET_NUM_CORES (input.length - 1) ≤ input.length - 1 ∧
    (selectConfig input).1 = supportedColorFormats.getD
      (input.getD (min OFFSET_COLOR_FORMAT (input.length - 1)) 0 % 6)
      .IV_YUV_420P ∧
    (selectConfig input).2 =
      input.getD (min OFFSET_NUM_CORES (input.length - 1)) 0 % 4 + 1 ∧
    1 ≤ (selectConfig input).2 ∧ (selectConfig input).2 ≤ 4 ∧
    (input.length = 7 →
      min OFFSET_COLOR_FORMAT (input.length - 1) = 6 ∧
      min OFFSET_NUM_CORES (input.length - 1) = 6) := by
  refine ⟨Nat.min_le_right _ _, Nat.min_le_right _ _, rfl, rfl, ?_, ?_, ?_⟩
  · unfold selectConfig kMaxCores
    dsimp only
    omega
  · unfold selectConfig kMaxCores
    dsimp only
    omega
  · intro h7
    rw [h7]
    decide

/-- Witness for claim C7 at the seven-zero-byte input of spec scenario B. -/
theorem claim_C7_witness :
    min OFFSET_COLOR_FORMAT 6 ≤ 6 ∧
    min OFFSET_NUM_CORES 6 ≤ 6 ∧
    (selectConfig (List.replicate 7 0)).1 = supportedColorFormats.getD
      ((List.replicate 7 0).getD (min OFFSET_COLOR_FORMAT 6) 0 % 6)
      .IV_YUV_420P ∧
    (selectConfig (List.replicate 7 0)).2 =
      (List.replicate 7 0).getD (min OFFSET_NUM_CORES 6) 0 % 4 + 1 ∧
    1 ≤ (selectConfig (List.replicate 7 0)).2 ∧
    (selectConfig (List.replicate 7 0)).2 ≤ 4 ∧
    ((List.replicate 7 (0 : Nat)).length = 7 →
      min OFFSET_COLOR_FORMAT 6 = 6 ∧ min OFFSET_NUM_CORES 6 = 6) :=
  claim_C7 (List.replicate 7 0) (by decide)

/-- Claim C8: after the header-discovery loop, a still-zero stored
geometry (0,0) is replaced by the defaults (1920, 1088), and the geometry
`decodeHeader` hands to buffer allocation always has both dimensions
nonzero. -/
theorem claim_C8 (o : Oracle) (st : CodecState) (off size : Nat) :
    ((headerLoop o st off size).st.mWidth = 0 ∧
      (headerLoop o st off size).st.mHeight = 0 →
      (decodeHeader o st off size).1.mWidth = 1920 ∧
      (decodeHeader o st off size).1.mHeight = 1088) ∧
    0 < (decodeHeader o st off size).1.mWidth ∧
    0 < (decodeHeader o st off size).1.mHeight := by
  refine ⟨?_, decodeHeader_pos o st off size⟩
  intro hz
  unfold decodeHeader
  dsimp only
  rw [if_pos hz.1]
  constructor
  · split <;> rfl
  · rw [if_pos]
    exact hz.2

/-- Witness for claim C8: the silent collaborator on a one-byte input. -/
theorem claim_C8_witness :
    ((headerLoop silentOracle (initState .IV_YUV_420P 1) 0 1).st.mWidth = 0 ∧
      (headerLoop silentOracle (initState .IV_YUV_420P 1) 0 1).st.mHeight = 0 →
      (decodeHeader silentOracle (initState .IV_YUV_420P 1) 0 1).1.mWidth = 1920 ∧
      (decodeHeader silentOracle (initState .IV_YUV_420P 1) 0 1).1.mHeight = 1088) ∧
    0 < (decodeHeader silentOracle (initState .IV_YUV_420P 1) 0 1).1.mWidth ∧
    0 < (decodeHeader silentOracle (initState .IV_YUV_420P 1) 0 1).1.mHeight :=
  claim_C8 silentOracle (initState .IV_YUV_420P 1) 0 1

/-- Claim C2: whenever the collaborator reports zero consumed bytes, the
cursor advance of the corresponding loop iteration is exactly
min(4, remaining length); both loops stay within `size` iterations. -/
theorem claim_C2 (o : Oracle) (st : CodecState) (off size : Nat)
    (h : 1 ≤ size) :
    ((o.resp st.calls).u4_num_bytes_consumed = 0 →
      effectiveConsume size (o.resp st.calls).u4_num_bytes_consumed
        = min 4 size) ∧
    ((governingResp o st).u4_num_bytes_consumed = 0 →
      min size (decodeFrame o st off size).2.1 = min 4 size) ∧
    (headerLoop o st off size).iters ≤ size ∧
    (frameLoop o st off size).iters ≤ size := by
  refine ⟨?_, ?_, headerLoop_iters_le o st off size,
    frameLoop_iters_le o st off size⟩
  · intro hz
    rw [hz, effectiveConsume_of_zero]
  · intro hz
    rw [decodeFrame_consumed, hz]
    unfold substConsume
    simp [Nat.min_comm]

/-- Witness for claim C2: the silent collaborator at one remaining byte. -/
theorem claim_C2_witness :
    ((silentOracle.resp 0).u4_num_bytes_consumed = 0 →
      effectiveConsume 1 (silentOracle.resp 0).u4_num_bytes_consumed
        = min 4 1) ∧
    ((governingResp silentOracle exampleState).u4_num_bytes_consumed = 0 →
      min 1 (decodeFrame silentOracle exampleState 0 1).2.1 = min 4 1) ∧
    (headerLoop silentOracle exampleState 0 1).iters ≤ 1 ∧
    (frameLoop silentOracle exampleState 0 1).iters ≤ 1 :=
  claim_C2 silentOracle exampleState 0 1 (by decide)

/-- Claim C1 (amended: every iteration advances the cursor by at least
one byte, not four; the iteration bound is `n` per loop, hence `2n` per
session, not `ceil(n/4)`): both loops terminate for every input (the
iteration budget never cuts them short), and the session's loop iteration
counts are bounded by the input length. -/
theorem claim_C1 (o : Oracle) (input : List Nat) (h : 1 ≤ input.length) :
    (∀ fuel st off, input.length ≤ fuel →
      headerLoopF o fuel st off input.length
        = headerLoop o st off input.length) ∧
    (∀ fuel st off, input.length ≤ fuel →
      frameLoopF o fuel st off input.length
        = frameLoop o st off input.length) ∧
    (∀ sz r, 1 ≤ sz → 1 ≤ effectiveConsume sz r) ∧
    (runSession o input).headerIters ≤ input.length ∧
    (runSession o input).frameIters ≤ input.length ∧
    (runSession o input).headerIters + (runSession o input).frameIters
      ≤ 2 * input.length := by
  have hn : ¬input.length = 0 := by omega
  have hh : (runSession o input).headerIters ≤ input.length := by
    unfold runSession
    dsimp only
    rw [if_neg hn]
    dsimp only
    rw [decodeHeader_iters]
    exact headerLoop_iters_le o _ 0 input.length
  have hf : (runSession o input).frameIters ≤ input.length := by
    unfold runSession
    dsimp only
    rw [if_neg hn]
    dsimp only
    exact frameLoop_iters_le o _ 0 input.length
  exact ⟨fun fuel st off hfu => headerLoopF_eq_headerLoop o fuel st off _ hfu,
    fun fuel st off hfu => frameLoopF_eq_frameLoop o fuel st off _ hfu,
    fun sz r h1 => effectiveConsume_pos sz r h1,
    hh, hf, by omega⟩

/-- Claim C1 counterexample: a collaborator that consumes exactly one byte
per call drives 16 loop iterations on an 8-byte input, far above
ceil(8/4) = 2; the second header submission starts at offset 1, so the
first iteration advanced the cursor by a single byte yet the loop
continued. -/
theorem claim_C1_cx :
    (runSession oneByteOracle (List.replicate 8 0)).headerIters +
        (runSession oneByteOracle (List.replicate 8 0)).frameIters = 16 ∧
    ((List.replicate 8 (0 : Nat)).length + 3) / 4 = 2 ∧
    ¬((runSession oneByteOracle (List.replicate 8 0)).headerIters +
        (runSession oneByteOracle (List.replicate 8 0)).frameIters ≤ 2) ∧
    (runSession oneByteOracle (List.replicate 8 0)).headerEvs[1]? =
      some (Ev.decode true 0 8 []) ∧
    (runSession oneByteOracle (List.replicate 8 0)).headerEvs[2]? =
      some (Ev.decode true 1 7 []) := by decide

/-- Witness for claim C1: the silent collaborator on a one-byte input. -/
theorem claim_C1_witness :
    (∀ fuel st off, 1 ≤ fuel →
      headerLoopF silentOracle fuel st off 1 = headerLoop silentOracle st off 1) ∧
    (∀ fuel st off, 1 ≤ fuel →
      frameLoopF silentOracle fuel st off 1 = frameLoop silentOracle st off 1) ∧
    (∀ sz r, 1 ≤ sz → 1 ≤ effectiveConsume sz r) ∧
    (runSession silentOracle [0]).headerIters ≤ 1 ∧
    (runSession silentOracle [0]).frameIters ≤ 1 ∧
    (runSession silentOracle [0]).headerIters +
      (runSession silentOracle [0]).frameIters ≤ 2 * 1 :=
  claim_C1 silentOracle [0] (by decide)

theorem freeBufs_filter_isReset (l : List Nat) :
    (l.map Ev.freeBuf).filter Ev.isReset = [] := by
  induction l with
  | nil => rfl
  | cons a l ih => simp [List.filter, Ev.isReset, ih]

theorem freeBufs_filter_isDecode (l : List Nat) :
    (l.map Ev.freeBuf).filter Ev.isDecode = [] := by
  induction l with
  | nil => rfl
  | cons a l ih => simp [List.filter, Ev.isDecode, ih]

/-- Claim C6: when the low byte of the first response's error code equals
the resolution-change signal, the frame decode call resets the instance
exactly once and resubmits the identical chunk exactly once, and the
consumed-byte count and geometry used afterwards come from the
resubmission's response, not from the probe's. -/
theorem claim_C6 (o : Oracle) (st : CodecState) (off size : Nat)
    (h : (o.resp st.calls).u4_error_code % 256 = IVD_RES_CHANGED) :
    (decodeFrame o st off size).2.2.take 3 =
      [Ev.decode st.hasCodec off size st.mOutBufs, Ev.reset st.hasCodec,
        Ev.decode st.hasCodec off size st.mOutBufs] ∧
    countResets (decodeFrame o st off size).2.2 = 1 ∧
    countDecodes (decodeFrame o st off size).2.2 = 2 ∧
    (decodeFrame o st off size).2.1 =
      substConsume (o.resp (st.calls + 1)).u4_num_bytes_consumed ∧
    (decodeFrame o st off size).1.calls = st.calls + 2 ∧
    (decodeFrame o st off size).1.mWidth =
      (if st.mWidth ≠ (o.resp (st.calls + 1)).u4_pic_wd ∨
          st.mHeight ≠ (o.resp (st.calls + 1)).u4_pic_ht then
        min (o.resp (st.calls + 1)).u4_pic_wd 10240
      else st.mWidth) ∧
    (decodeFrame o st off size).1.mHeight =
      (if st.mWidth ≠ (o.resp (st.calls + 1)).u4_pic_wd ∨
          st.mHeight ≠ (o.resp (st.calls + 1)).u4_pic_ht then
        min (o.resp (st.calls + 1)).u4_pic_ht 10240
      else st.mHeight) := by
  have hg : governingResp o st = o.resp (st.calls + 1) := by
    unfold governingResp
    rw [if_pos h]
  have hevs := decodeFrame_evs_eq o st off size
  rw [if_pos h, hg] at hevs
  refine ⟨?_, ?_, ?_, ?_, ?_, ?_, ?_⟩
  · rw [hevs]
    rfl
  · rw [hevs]
    unfold countResets
    split
    · simp [List.filter, List.filter_append, Ev.isReset,
        freeBufs_filter_isReset]
    · simp [List.filter, Ev.isReset]
  · rw [hevs]
    unfold countDecodes
    split
    · simp [List.filter, List.filter_append, Ev.isDecode,
        freeBufs_filter_isDecode]
    · simp [List.filter, Ev.isDecode]
  · rw [decodeFrame_consumed, hg]
  · unfold decodeFrame allocFrame
    dsimp only
    rw [if_pos h, hg]
    split <;> rfl
  · unfold decodeFrame allocFrame
    dsimp only
    rw [if_pos h, hg]
    split <;> rfl
  · unfold decodeFrame allocFrame
    dsimp only
    rw [if_pos h, hg]
    split <;> rfl

theorem getElem?_zero_eq_head? {α : Type} (l : List α) : l[0]? = l.head? := by
  cases l <;> simp

theorem head?_mem {α : Type} (l : List α) (a : α) (h : l.head? = some a) :
    a ∈ l := by
  cases l with
  | nil => simp at h
  | cons x t =>
    simp only [List.head?, Option.some.injEq] at h
    subst h
    exact List.mem_cons_self _ _

theorem headerLoop_first (o : Oracle) (st : CodecState) (off size : Nat)
    (hs : size ≠ 0) :
    (headerLoop o st off size).evs.head? =
      some (Ev.decode st.hasCodec off size []) :=
  headerLoopF_first o size st off size hs hs

theorem frameLoop_first (o : Oracle) (st : CodecState) (off size : Nat)
    (hs : size ≠ 0) :
    (frameLoop o st off size).evs.head? =
      some (Ev.decode st.hasCodec off size st.mOutBufs) :=
  frameLoopF_first o size st off size hs hs

theorem allocFrame_evs_handle (st : CodecState) :
    ∀ e ∈ (allocFrame st).2, Ev.usesHandle e = false := by
  intro e he
  unfold allocFrame at he
  dsimp only at he
  simp only [List.mem_append, List.mem_map, List.mem_singleton] at he
  rcases he with ⟨sz, _, rfl⟩ | rfl <;> rfl

/-- Claim C10: the per-frame loop restarts from byte 0 of the original
input with the full original length — its first submission covers exactly
the same chunk as the header phase's first submission, so the bytes
consumed during header discovery are submitted to the collaborator a
second time. -/
theorem claim_C10 (o : Oracle) (input : List Nat) (h : 1 ≤ input.length) :
    (∃ hb bufs, (runSession o input).frameEvs.head? =
      some (Ev.decode hb 0 input.length bufs)) ∧
    (∃ hb, (runSession o input).headerEvs.head? =
      some (Ev.setParams hb .IVD_DECODE_HEADER)) ∧
    (∃ hb, (runSession o input).headerEvs[1]? =
      some (Ev.decode hb 0 input.length [])) := by
  have hn : ¬input.length = 0 := by omega
  unfold runSession
  dsimp only
  rw [if_neg hn]
  dsimp only
  refine ⟨?_, ?_, ?_⟩
  · exact ⟨_, _, frameLoop_first o _ 0 input.length hn⟩
  · exact ⟨_, rfl⟩
  · exact ⟨_, by
      unfold decodeHeader
      dsimp only
      rw [List.getElem?_cons_succ, getElem?_zero_eq_head?]
      exact headerLoop_first o _ 0 input.length hn⟩

/-- Witness for claim C10: the silent collaborator on a one-byte input. -/
theorem claim_C10_witness :
    (∃ hb bufs, (runSession silentOracle [0]).frameEvs.head? =
      some (Ev.decode hb 0 1 bufs)) ∧
    (∃ hb, (runSession silentOracle [0]).headerEvs.head? =
      some (Ev.setParams hb .IVD_DECODE_HEADER)) ∧
    (∃ hb, (runSession silentOracle [0]).headerEvs[1]? =
      some (Ev.decode hb 0 1 [])) :=
  claim_C10 silentOracle [0] (by decide)

theorem frameLoop_preserve (o : Oracle) (st : CodecState) (off size : Nat) :
    (frameLoop o st off size).st.hasCodec = st.hasCodec ∧
    (frameLoop o st off size).st.mColorFormat = st.mColorFormat ∧
    (frameLoop o st off size).st.mNumCores = st.mNumCores :=
  frameLoopF_preserve o size st off size

theorem frameLoop_evs (o : Oracle) (st : CodecState) (off size : Nat) :
    ∀ e ∈ (frameLoop o st off size).evs,
      (Ev.usesHandle e = st.hasCodec ∨ Ev.usesHandle e = false) ∧
      (∀ w h s, e = Ev.alloc w h s → w ≤ 10240 ∧ h ≤ 10240) :=
  frameLoopF_evs o size st off size

theorem createCodec_hasCodec (o : Oracle) (st : CodecState)
    (h : st.hasCodec = false) : (createCodec o st).hasCodec = o.createOk := by
  unfold createCodec
  cases hc : o.createOk <;> simp [hc, h]

theorem createCodec_preserve (o : Oracle) (st : CodecState) :
    (createCodec o st).mColorFormat = st.mColorFormat ∧
    (createCodec o st).mNumCores = st.mNumCores ∧
    (createCodec o st).mWidth = st.mWidth ∧
    (createCodec o st).mHeight = st.mHeight ∧
    (createCodec o st).mOutBufs = st.mOutBufs ∧
    (createCodec o st).calls = st.calls := by
  unfold createCodec
  split <;> simp

/-- Claim C4 (amended: the harness does NOT abandon the session on a
failed creation — `createCodec` returns with `mCodec` still null and
nothing checks it; every subsequent collaborator call, including
SetWorkerCount, the header and frame decodes and the final delete, is
still issued, each with the null instance handle): after a failed
creation, every handle-bearing call in the session trace carries a null
handle, and SetWorkerCount, decode submissions and DestroyInstance do
appear in the trace. -/
theorem claim_C4 (o : Oracle) (input : List Nat) (h : 1 ≤ input.length)
    (hc : o.createOk = false) :
    (∀ e ∈ (runSession o input).trace, Ev.usesHandle e = false) ∧
    Ev.setCores false (selectConfig input).2 ∈ (runSession o input).trace ∧
    (∃ a b, Ev.decode false a b [] ∈ (runSession o input).trace) ∧
    Ev.deleteInst false ∈ (runSession o input).trace := by
  have hn : ¬input.length = 0 := by omega
  have hst1 : (createCodec o (initState (selectConfig input).1
      (selectConfig input).2)).hasCodec = false := by
    rw [createCodec_hasCodec o _ rfl, hc]
  unfold runSession
  dsimp only
  rw [if_neg hn]
  dsimp only
  refine ⟨?_, ?_, ?_, ?_⟩
  · intro e he
    simp only [List.mem_cons, List.mem_append, List.mem_singleton,
      List.not_mem_nil, or_false] at he
    rcases he with rfl | rfl | he
    · rfl
    · exact hst1
    rcases he with he | he
    · rcases decodeHeader_evs o _ 0 input.length e he with h1 | ⟨a, b, h1⟩
      · rw [h1]
        exact hst1
      · rw [h1]
        exact hst1
    rcases he with rfl | he
    · exact (decodeHeader_preserve o _ 0 input.length).1.trans hst1
    rcases he with he | rfl
    rcases he with he | he
    rcases he with he | he
    · exact allocFrame_evs_handle _ e he
    · rcases frameLoop_evs o _ 0 input.length e he with ⟨h1 | h1, _⟩
      · rw [h1]
        exact (decodeHeader_preserve o _ 0 input.length).1.trans hst1
      · exact h1
    · simp only [List.mem_map] at he
      rcases he with ⟨sz, _, rfl⟩
      rfl
    · exact (frameLoop_preserve o _ 0 input.length).1.trans
        ((decodeHeader_preserve o _ 0 input.length).1.trans hst1)
  · rw [hst1]
    rcases createCodec_preserve o (initState (selectConfig input).1
      (selectConfig input).2) with ⟨_, h2, _⟩
    rw [show (createCodec o (initState (selectConfig input).1
        (selectConfig input).2)).mNumCores = (selectConfig input).2 from h2]
    exact List.mem_cons_of_mem _ (List.mem_cons_self _ _)
  · refine ⟨0, input.length, ?_⟩
    have h1 := headerLoop_first o (createCodec o (initState
      (selectConfig input).1 (selectConfig input).2)) 0 input.length hn
    rw [hst1] at h1
    have h2 := head?_mem _ _ h1
    refine List.mem_cons_of_mem _ (List.mem_cons_of_mem _
      (List.mem_append_left _ ?_))
    unfold decodeHeader
    dsimp only
    exact List.mem_cons_of_mem _ h2
  · have hfl := (frameLoop_preserve o (allocFrame (decodeHeader o
      (createCodec o (initState (selectConfig input).1
        (selectConfig input).2)) 0 input.length).1).1 0 input.length).1
    have hafl : (allocFrame (decodeHeader o (createCodec o (initState
        (selectConfig input).1 (selectConfig input).2)) 0
        input.length).1).1.hasCodec = false :=
      (decodeHeader_preserve o _ 0 input.length).1.trans hst1
    rw [hafl] at hfl
    rw [hfl]
    simp

/-- Claim C4 counterexample: with a collaborator whose creation fails, the
session on input [0x00] still issues a SetWorkerCount call, a decode
submission and a DestroyInstance call — the claim says none of these calls
is issued after a failed creation. -/
theorem claim_C4_cx :
    Ev.setCores false 1 ∈ (runSession failOracle [0]).trace ∧
    Ev.decode false 0 1 [] ∈ (runSession failOracle [0]).trace ∧
    Ev.deleteInst false ∈ (runSession failOracle [0]).trace := by decide

/-- Witness for claim C4: the failing collaborator on a one-byte input. -/
theorem claim_C4_witness :
    (∀ e ∈ (runSession failOracle [0]).trace, Ev.usesHandle e = false) ∧
    Ev.setCores false (selectConfig [0]).2 ∈ (runSession failOracle [0]).trace ∧
    (∃ a b, Ev.decode false a b [] ∈ (runSession failOracle [0]).trace) ∧
    Ev.deleteInst false ∈ (runSession failOracle [0]).trace :=
  claim_C4 failOracle [0] (by decide) rfl

/-- Claim C5: whenever the governing response of a frame-decode call
reports a geometry different from the session's stored one, the output
buffer set becomes exactly the catalog sizes for the clamped geometry; the
call's trace ends with every previously held plane being freed followed by
the single new allocation (so the swap is complete before any later
submission), and every allocation event of any session carries dimensions
clamped to 10240. -/
theorem claim_C5 :
    (∀ o : Oracle, ∀ st : CodecState, ∀ off size : Nat,
      st.mWidth ≠ (governingResp o st).u4_pic_wd ∨
        st.mHeight ≠ (governingResp o st).u4_pic_ht →
      (decodeFrame o st off size).1.mOutBufs =
        allocSizes st.mColorFormat
          (min (governingResp o st).u4_pic_wd 10240)
          (min (governingResp o st).u4_pic_ht 10240) ∧
      min (governingResp o st).u4_pic_wd 10240 ≤ 10240 ∧
      min (governingResp o st).u4_pic_ht 10240 ≤ 10240 ∧
      ∃ pre, (decodeFrame o st off size).2.2 =
          pre ++ (st.mOutBufs.map Ev.freeBuf ++
            [Ev.alloc (min (governingResp o st).u4_pic_wd 10240)
              (min (governingResp o st).u4_pic_ht 10240)
              (allocSizes st.mColorFormat
                (min (governingResp o st).u4_pic_wd 10240)
                (min (governingResp o st).u4_pic_ht 10240))]) ∧
        ∀ e ∈ pre, Ev.isAlloc e = false ∧ Ev.isFreeBuf e = false) ∧
    (∀ o : Oracle, ∀ input : List Nat, ∀ w h s,
      Ev.alloc w h s ∈ (runSession o input).trace →
        w ≤ 10240 ∧ h ≤ 10240) := by
  constructor
  · intro o st off size hdiff
    refine ⟨?_, Nat.min_le_right _ _, Nat.min_le_right _ _, ?_⟩
    · unfold decodeFrame allocFrame
      dsimp only
      rw [if_pos hdiff]
      split <;> rfl
    · refine ⟨Ev.decode st.hasCodec off size st.mOutBufs ::
        (if (o.resp st.calls).u4_error_code % 256 = IVD_RES_CHANGED then
          [Ev.reset st.hasCodec, Ev.decode st.hasCodec off size st.mOutBufs]
        else []), ?_, ?_⟩
      · rw [decodeFrame_evs_eq, if_pos hdiff]
        simp
      · intro e he
        simp only [List.mem_cons] at he
        rcases he with rfl | he
        · exact ⟨rfl, rfl⟩
        · split at he
          · simp only [List.mem_cons, List.not_mem_nil, or_false] at he
            rcases he with rfl | rfl <;> exact ⟨rfl, rfl⟩
          · simp at he
  · intro o input w h s hmem
    by_cases hn : input.length = 0
    · unfold runSession at hmem
      dsimp only at hmem
      rw [if_pos hn] at hmem
      simp at hmem
    · unfold runSession at hmem
      dsimp only at hmem
      rw [if_neg hn] at hmem
      dsimp only at hmem
      simp only [List.mem_cons, List.mem_append, List.mem_singleton,
        List.not_mem_nil, or_false] at hmem
      rcases hmem with hmem | hmem | hmem
      · simp at hmem
      · simp at hmem
      rcases hmem with hmem | hmem
      · rcases decodeHeader_evs o _ 0 input.length _ hmem with h1 | ⟨a, b, h1⟩
        · simp at h1
        · simp at h1
      rcases hmem with hmem | hmem
      · simp at hmem
      rcases hmem with hmem | hmem
      rcases hmem with hmem | hmem
      rcases hmem with hmem | hmem
      · -- the post-header allocation
        unfold allocFrame at hmem
        dsimp only at hmem
        simp only [List.mem_append, List.mem_map, List.mem_singleton] at hmem
        rcases hmem with ⟨sz, _, heq⟩ | heq
        · simp at heq
        · have hcl := decodeHeader_clamped o (createCodec o (initState
            (selectConfig input).1 (selectConfig input).2)) 0 input.length
            (by rcases createCodec_preserve o (initState (selectConfig input).1
                (selectConfig input).2) with ⟨_, _, h3, _⟩
                rw [h3]
                exact Nat.zero_le _)
            (by rcases createCodec_preserve o (initState (selectConfig input).1
                (selectConfig input).2) with ⟨_, _, _, h4, _⟩
                rw [h4]
                exact Nat.zero_le _)
          simp only [Ev.alloc.injEq] at heq
          rcases heq with ⟨hw, hh, _⟩
          rw [hw, hh]
          exact hcl
      · exact (frameLoop_evs o _ 0 input.length _ hmem).2 w h s rfl
      · simp only [List.mem_map] at hmem
        rcases hmem with ⟨sz, _, heq⟩
        simp at heq
      · simp at hmem

/-- Witness for claim C5: part one at the resolution-change collaborator
(geometry 64x32 differs from the stored 0x0), part two at the first
allocation of a silent session. -/
theorem claim_C5_witness :
    ((decodeFrame resChangeOracle exampleState 0 5).1.mOutBufs =
        allocSizes .IV_YUV_420P (min 64 10240) (min 32 10240) ∧
      min (64 : Nat) 10240 ≤ 10240 ∧
      min (32 : Nat) 10240 ≤ 10240 ∧
      ∃ pre, (decodeFrame resChangeOracle exampleState 0 5).2.2 =
          pre ++ (([] : List Nat).map Ev.freeBuf ++
            [Ev.alloc (min 64 10240) (min 32 10240)
              (allocSizes .IV_YUV_420P (min 64 10240) (min 32 10240))]) ∧
        ∀ e ∈ pre, Ev.isAlloc e = false ∧ Ev.isFreeBuf e = false) ∧
    ((1920 : Nat) ≤ 10240 ∧ (1088 : Nat) ≤ 10240) :=
  ⟨claim_C5.1 resChangeOracle exampleState 0 5 (by decide),
    claim_C5.2 silentOracle [0] 1920 1088
      (allocSizes .IV_YUV_420P 1920 1088) (by decide)⟩

theorem headerLoopF_one (o : Oracle) (st : CodecState) (off : Nat) :
    headerLoopF o 1 st off 1 = ⟨{ st with
      mWidth := min (o.resp st.calls).u4_pic_wd 10240,
      mHeight := min (o.resp st.calls).u4_pic_ht 10240,
      calls := st.calls + 1 }, [Ev.decode st.hasCodec off 1 []], 1⟩ := by
  simp only [headerLoopF]
  rw [if_neg (by decide : ¬(1 : Nat) = 0)]
  split <;> rfl

theorem headerLoop_one (o : Oracle) (st : CodecState) (off : Nat) :
    headerLoop o st off 1 = ⟨{ st with
      mWidth := min (o.resp st.calls).u4_pic_wd 10240,
      mHeight := min (o.resp st.calls).u4_pic_ht 10240,
      calls := st.calls + 1 }, [Ev.decode st.hasCodec off 1 []], 1⟩ :=
  headerLoopF_one o st off

theorem frameLoopF_one (o : Oracle) (st : CodecState) (off : Nat) :
    frameLoopF o 1 st off 1 =
      ⟨(decodeFrame o st off 1).1, (decodeFrame o st off 1).2.2, 1⟩ := by
  simp only [frameLoopF]
  rw [if_neg (by decide : ¬(1 : Nat) = 0)]
  simp

theorem frameLoop_one (o : Oracle) (st : CodecState) (off : Nat) :
    frameLoop o st off 1 =
      ⟨(decodeFrame o st off 1).1, (decodeFrame o st off 1).2.2, 1⟩ :=
  frameLoopF_one o st off

theorem getLast?_append_last {α : Type} (l1 l2 : List α) (x : α)
    (h : l2.getLast? = some x) : (l1 ++ l2).getLast? = some x := by
  rw [List.getLast?_append, h]
  rfl

theorem getLast?_cons_some {α : Type} (a : α) (l : List α) (x : α)
    (h : l.getLast? = some x) : (a :: l).getLast? = some x :=
  getLast?_append_last [a] l x h

/-- Claim C3 (amended: on the 1-byte input 0x00 both loops run exactly ONE
iteration each, not zero — `while (size > 0)` enters its body once before
the minimum-advance rule exhausts the single byte, and the frame loop
restarts from the full input; the remaining facts of the claim hold as
stated whenever the collaborator reports no geometry on the first call):
the session uses layout catalog[0] and workerCount 1, the header loop runs
once, geometry defaults to 1920x1088 so the first allocation is the
Planar420 set at 1920x1088, the frame loop runs once, and the session ends
with the DestroyInstance call. -/
theorem claim_C3 (o : Oracle) (hw : (o.resp 0).u4_pic_wd = 0)
    (hh : (o.resp 0).u4_pic_ht = 0) :
    (runSession o [0]).cfg = (.IV_YUV_420P, 1) ∧
    (runSession o [0]).headerIters = 1 ∧
    ((runSession o [0]).trace.filter Ev.isAlloc).head? =
      some (Ev.alloc 1920 1088 (allocSizes .IV_YUV_420P 1920 1088)) ∧
    (runSession o [0]).frameIters = 1 ∧
    (runSession o [0]).trace.getLast? = some (Ev.deleteInst o.createOk) := by
  have hn : ¬([0] : List Nat).length = 0 := by decide
  rcases createCodec_preserve o (initState (selectConfig [0]).1
    (selectConfig [0]).2) with ⟨p1, p2, p3, p4, p5, p6⟩
  unfold runSession
  dsimp only
  rw [if_neg hn]
  dsimp only
  simp only [List.length_singleton]
  refine ⟨rfl, ?_, ?_, ?_, ?_⟩
  · rw [decodeHeader_iters, headerLoop_one]
  · unfold decodeHeader allocFrame
    dsimp only
    rw [headerLoop_one]
    dsimp only
    rw [p1, p5, p6]
    simp only [initState]
    rw [hw, hh]
    simp [Ev.isAlloc, List.filter_append, frameLoop_one]
    rfl
  · rw [frameLoop_one]
  · have hx : (frameLoop o (allocFrame (decodeHeader o (createCodec o
        (initState (selectConfig [0]).1 (selectConfig [0]).2)) 0
        1).1).1 0 1).st.hasCodec
        = o.createOk :=
      (frameLoop_preserve o _ 0 _).1.trans
        ((decodeHeader_preserve o _ 0 _).1.trans
          (createCodec_hasCodec o _ rfl))
    rw [← hx]
    apply getLast?_cons_some
    apply getLast?_cons_some
    apply getLast?_append_last
    apply getLast?_cons_some
    apply getLast?_append_last
    rfl

/-- Claim C3 counterexample: on the one-byte input both loops run one
iteration, not zero as the claim says (shown here with the collaborator
that reports nothing, under which every other part of the scenario
holds). -/
theorem claim_C3_cx :
    (runSession silentOracle [0]).headerIters = 1 ∧
    (runSession silentOracle [0]).frameIters = 1 ∧
    ¬((runSession silentOracle [0]).headerIters = 0) ∧
    ¬((runSession silentOracle [0]).frameIters = 0) := by decide

/-- Witness for claim C3: the silent collaborator. -/
theorem claim_C3_witness :
    (runSession silentOracle [0]).cfg = (.IV_YUV_420P, 1) ∧
    (runSession silentOracle [0]).headerIters = 1 ∧
    ((runSession silentOracle [0]).trace.filter Ev.isAlloc).head? =
      some (Ev.alloc 1920 1088 (allocSizes .IV_YUV_420P 1920 1088)) ∧
    (runSession silentOracle [0]).frameIters = 1 ∧
    (runSession silentOracle [0]).trace.getLast? =
      some (Ev.deleteInst true) :=
  claim_C3 silentOracle rfl rfl

/-- Witness for claim C6: the resolution-change collaborator at an
arbitrary five-byte chunk. -/
theorem claim_C6_witness :
    (decodeFrame resChangeOracle exampleState 0 5).2.2.take 3 =
      [Ev.decode false 0 5 [], Ev.reset false, Ev.decode false 0 5 []] ∧
    countResets (decodeFrame resChangeOracle exampleState 0 5).2.2 = 1 ∧
    countDecodes (decodeFrame resChangeOracle exampleState 0 5).2.2 = 2 ∧
    (decodeFrame resChangeOracle exampleState 0 5).2.1 =
      substConsume (resChangeOracle.resp (0 + 1)).u4_num_bytes_consumed ∧
    (decodeFrame resChangeOracle exampleState 0 5).1.calls = 0 + 2 ∧
    (decodeFrame resChangeOracle exampleState 0 5).1.mWidth =
      (if (0 : Nat) ≠ (resChangeOracle.resp (0 + 1)).u4_pic_wd ∨
          (0 : Nat) ≠ (resChangeOracle.resp (0 + 1)).u4_pic_ht then
        min (resChangeOracle.resp (0 + 1)).u4_pic_wd 10240
      else 0) ∧
    (decodeFrame resChangeOracle exampleState 0 5).1.mHeight =
      (if (0 : Nat) ≠ (resChangeOracle.resp (0 + 1)).u4_pic_wd ∨
          (0 : Nat) ≠ (resChangeOracle.resp (0 + 1)).u4_pic_ht then
        min (resChangeOracle.resp (0 + 1)).u4_pic_ht 10240
      else 0) :=
  claim_C6 resChangeOracle exampleState 0 5 (by decide)
